import Mathlib

/-
Verification of the SSE (server-sent events) client in this repository.

The parsing pipeline lives in src/parse.ts (getLines, getMessages); that file
is not present in this checkout (only its tests in src/test/parse.spec.ts and
its caller src/fetch.ts are), so the LineTokenizer and MessageAssembler below
are modelled from the design spec, with the dispatch guard pinned by the
repository tests. The connection-controller definitions further down are
embedded directly from src/fetch.ts, which is present.

Bytes are modelled as natural numbers (the code works on Uint8Array values);
strings decoded from bytes use an ASCII-style decoding, which is exact for
every input the claims and tests exercise.
-/

namespace SSE

/-- Byte sequence of an ASCII string, as fed to the tokenizer by tests. -/
def strBytes (s : String) : List Nat := s.toList.map Char.toNat

/-- Decoding of a byte sequence back to a string (the TextDecoder step). -/
def decodeBytes (bs : List Nat) : String := String.mk (bs.map Char.ofNat)

/-- A tokenized line: its bytes plus the fieldBoundary marker, which is the
index of the first colon byte, or -1 when the line holds no colon or is
empty. -/
structure Line where
  bytes : List Nat
  fieldBoundary : Int
deriving DecidableEq

/-- Modelled from the spec: internal state of getLines in the missing
src/parse.ts. cur holds the unterminated bytes carried over, firstColon the
index of the first colon seen in the current line, and skipLF the flag that
swallows a line feed immediately following a carriage return, even across
feed calls. -/
structure LTState where
  cur : List Nat
  firstColon : Option Nat
  skipLF : Bool
deriving DecidableEq

/-- The tokenizer state before any byte has been fed. -/
def initLT : LTState := ⟨[], none, false⟩

/-- The line emitted when a terminator is reached in state st. -/
def mkLine (st : LTState) : Line :=
  ⟨st.cur, match st.firstColon with | some i => Int.ofNat i | none => -1⟩

/-- Modelled from the spec: one byte of the single left-to-right scan of
getLines. Byte 10 is the line feed, 13 the carriage return, 58 the colon. A
carriage return emits the line immediately and arms skipLF; a line feed seen
while skipLF is armed is swallowed. -/
def stepByte (st : LTState) (b : Nat) : LTState × List Line :=
  if st.skipLF ∧ b = 10 then ({ st with skipLF := false }, [])
  else
    let st1 : LTState := { st with skipLF := false }
    if b = 10 then (⟨[], none, false⟩, [mkLine st1])
    else if b = 13 then (⟨[], none, true⟩, [mkLine st1])
    else
      let fc := if b = 58 ∧ st1.firstColon = none then some st1.cur.length
        else st1.firstColon
      ({ st1 with cur := st1.cur ++ [b], firstColon := fc }, [])

/-- Modelled from the spec: one call of the onChunk closure returned by
getLines, scanning a whole chunk and returning the lines emitted during it. -/
def feedBytes (st : LTState) : List Nat → LTState × List Line
  | [] => (st, [])
  | b :: rest =>
      let p := stepByte st b
      let q := feedBytes p.1 rest
      (q.1, p.2 ++ q.2)

/-- A sequence of onChunk calls, one per chunk, collecting all lines. -/
def feedChunks (st : LTState) : List (List Nat) → LTState × List Line
  | [] => (st, [])
  | c :: rest =>
      let p := feedBytes st c
      let q := feedChunks p.1 rest
      (q.1, p.2 ++ q.2)

theorem feedBytes_append (xs ys : List Nat) (st : LTState) :
    feedBytes st (xs ++ ys) =
      ((feedBytes (feedBytes st xs).1 ys).1,
       (feedBytes st xs).2 ++ (feedBytes (feedBytes st xs).1 ys).2) := by
  induction xs generalizing st with
  | nil => simp [feedBytes]
  | cons b rest ih =>
      simp [feedBytes, ih (stepByte st b).1, List.append_assoc]

theorem feedChunks_eq_feedBytes_join (cs : List (List Nat)) (st : LTState) :
    feedChunks st cs = feedBytes st cs.flatten := by
  induction cs generalizing st with
  | nil => simp [feedChunks, feedBytes]
  | cons c rest ih =>
      simp [feedChunks, List.flatten, feedBytes_append, ih (feedBytes st c).1]

/-- C3: the line sequence emitted by the LineTokenizer depends only on the
concatenation of the fed byte chunks: any two chunkings of the same total
byte string produce byte-for-byte identical line sequences. -/
theorem lines_depend_only_on_concatenation (cs1 cs2 : List (List Nat))
    (h : cs1.flatten = cs2.flatten) :
    (feedChunks initLT cs1).2 = (feedChunks initLT cs2).2 := by
  rw [feedChunks_eq_feedBytes_join, feedChunks_eq_feedBytes_join, h]

/-- Witness for C3 at a concrete split: one chunking in two pieces and the
unsplit chunking of the same bytes give the same lines. -/
theorem lines_depend_only_on_concatenation_witness :
    ([strBytes "id: a", strBytes "bc\n"].flatten = [strBytes "id: abc\n"].flatten) ∧
    (feedChunks initLT [strBytes "id: a", strBytes "bc\n"]).2 =
      (feedChunks initLT [strBytes "id: abc\n"]).2 :=
  ⟨by decide, lines_depend_only_on_concatenation _ _ (by decide)⟩

/-- C4: each of the line feed, the carriage return, and the pair of both
counts as exactly one terminator. A carriage return emits immediately, and a
line feed right after it, even in a later feed call, is swallowed: the bare
carriage-return input and the two-byte-terminator input both yield exactly
the two lines, and the swallow works across a chunk boundary. -/
theorem cr_lf_crlf_single_terminators :
    (feedBytes initLT (strBytes "id: abc\rdata: def\r")).2 =
      [⟨strBytes "id: abc", 2⟩, ⟨strBytes "data: def", 4⟩] ∧
    (feedBytes initLT (strBytes "id: abc\r\ndata: def\r\n")).2 =
      [⟨strBytes "id: abc", 2⟩, ⟨strBytes "data: def", 4⟩] ∧
    (feedChunks initLT [strBytes "id: abc\r", strBytes "\ndata: def\n"]).2 =
      [⟨strBytes "id: abc", 2⟩, ⟨strBytes "data: def", 4⟩] := by
  refine ⟨?_, ?_, ?_⟩ <;> decide

/-- The dispatched, immutable value delivered to the caller: id, event,
joined data, and the optional retry interval. -/
structure EventSourceMessage where
  id : String
  event : String
  data : String
  retry : Option Nat
deriving DecidableEq

/-- The observable callback invocations of the MessageAssembler: the id
side-channel, the retry side-channel, and message dispatch. -/
inductive MAEvent where
  | onId (id : String)
  | onRetry (ms : Nat)
  | onMessage (msg : EventSourceMessage)
deriving DecidableEq

/-- Modelled from the spec: the PendingMessage accumulator of getMessages in
the missing src/parse.ts. -/
structure MAState where
  id : String
  event : String
  dataParts : List String
  retry : Option Nat
deriving DecidableEq

/-- The accumulator at the start of a stream. -/
def initMA : MAState := ⟨"", "", [], none⟩

/-- Whether a byte is an ASCII decimal digit. -/
def isDigit (b : Nat) : Bool := decide (48 ≤ b ∧ b ≤ 57)

/-- Numeric parse of a retry value: defined only when the value is nonempty
and consists entirely of decimal digits. -/
def parseRetry (v : List Nat) : Option Nat :=
  if v ≠ [] ∧ v.all isDigit then
    some (v.foldl (fun acc b => acc * 10 + (b - 48)) 0)
  else none

/-- Field-value extraction: the bytes after the colon, with exactly one
leading space byte stripped when present. -/
def extractValue (line : List Nat) (fb : Nat) : List Nat :=
  let rest := line.drop (fb + 1)
  if rest.head? = some 32 then rest.tail else rest

/-- The message snapshot built from the accumulator at dispatch time: the
data parts are joined with a line feed. -/
def dispatchMsg (st : MAState) : EventSourceMessage :=
  ⟨st.id, st.event, String.intercalate "\n" st.dataParts, st.retry⟩

/-- Modelled from the spec: the onLine closure of getMessages in the missing
src/parse.ts, processing one tokenized line. A zero-length line ends the
block: the message is dispatched only when at least one data field line has
been accumulated — the guard the repository tests pin down in
src/test/parse.spec.ts lines 269-313 — and then event, dataParts and retry
are reset while id persists. A non-empty line with fieldBoundary at most 0
is discarded (malformed line or comment). Otherwise the field name selects
the buffer: id (rejecting values holding a NUL byte, signalling onId),
event, data (appending), retry (all-digit values only, signalling onRetry);
unknown names are discarded. -/
def feedLine (st : MAState) (line : List Nat) (fb : Int) : MAState × List MAEvent :=
  if line.length = 0 then
    let evs := if st.dataParts = [] then []
      else [MAEvent.onMessage (dispatchMsg st)]
    ({ st with event := "", dataParts := [], retry := none }, evs)
  else if fb ≤ 0 then (st, [])
  else
    let n := fb.toNat
    let name := decodeBytes (line.take n)
    let value := extractValue line n
    if name = "id" then
      if value.contains 0 then (st, [])
      else ({ st with id := decodeBytes value }, [MAEvent.onId (decodeBytes value)])
    else if name = "event" then ({ st with event := decodeBytes value }, [])
    else if name = "data" then
      ({ st with dataParts := st.dataParts ++ [decodeBytes value] }, [])
    else if name = "retry" then
      match parseRetry value with
      | some r => ({ st with retry := some r }, [MAEvent.onRetry r])
      | none => (st, [])
    else (st, [])

/-- A sequence of onLine calls, collecting every callback invocation. -/
def runLines (st : MAState) : List (List Nat × Int) → MAState × List MAEvent
  | [] => (st, [])
  | l :: rest =>
      let p := feedLine st l.1 l.2
      let q := runLines p.1 rest
      (q.1, p.2 ++ q.2)

/-- The messages dispatched among a list of callback invocations. -/
def messagesOf (evs : List MAEvent) : List EventSourceMessage :=
  evs.filterMap fun e => match e with | .onMessage m => some m | _ => none

/-- The id-signal invocations among a list of callback invocations. -/
def idsOf (evs : List MAEvent) : List String :=
  evs.filterMap fun e => match e with | .onId i => some i | _ => none

/-- The retry-signal invocations among a list of callback invocations. -/
def retriesOf (evs : List MAEvent) : List Nat :=
  evs.filterMap fun e => match e with | .onRetry r => some r | _ => none

/-- Counterexample to C1 as stated: a blank line that terminates a block in
which no data field line was accumulated (here, a comment-only keepalive
block as in src/test/parse.spec.ts lines 293-313) dispatches no message,
although the claim requires every blank line to trigger exactly one
dispatch. -/
theorem blank_line_without_data_no_dispatch_cex :
    messagesOf (runLines initMA [(strBytes ":", 0), ([], -1)]).2 = [] := by
  decide

/-- C1 amended: a message is dispatched exactly when the fed line has zero
length and at least one data field line has been accumulated since the last
dispatch; no non-empty line ever triggers a dispatch, whatever its
fieldBoundary. -/
theorem dispatch_iff_blank_and_data (st : MAState) (line : List Nat) (fb : Int) :
    messagesOf (feedLine st line fb).2 =
      if line.length = 0 ∧ st.dataParts ≠ [] then [dispatchMsg st] else [] := by
  unfold feedLine
  by_cases hl : line.length = 0
  · by_cases hd : st.dataParts = [] <;> simp [hl, hd, messagesOf]
  · simp only [hl, false_and, reduceIte]
    by_cases hfb : fb ≤ 0
    · simp [hfb, messagesOf]
    · simp only [hfb, reduceIte]
      split_ifs <;> (try split) <;> simp [messagesOf]

/-- Witness for C1 amended: a data line followed by a blank line dispatches
exactly the accumulated message. -/
theorem dispatch_iff_blank_and_data_witness :
    messagesOf (feedLine ⟨"", "", ["hello"], none⟩ [] (-1)).2 =
      [dispatchMsg ⟨"", "", ["hello"], none⟩] := by
  have h := dispatch_iff_blank_and_data ⟨"", "", ["hello"], none⟩ [] (-1)
  simpa using h

/-- C2: on a zero-length line, a message is dispatched exactly when at least
one data field line has been accumulated since the last dispatch; and a
block holding only id, comment, event or unknown lines dispatches nothing on
its blank line while the id signal still fires for its id lines, as in the
empty-data test of src/test/parse.spec.ts lines 269-291. -/
theorem blank_dispatch_requires_data :
    (∀ (st : MAState) (fb : Int),
      messagesOf (feedLine st [] fb).2 =
        if st.dataParts = [] then [] else [dispatchMsg st]) ∧
    messagesOf (runLines initMA
      [(strBytes "id:123", 2), (strBytes ":", 0), (strBytes ":    ", 0),
       (strBytes "event: foo ", 5), ([], -1)]).2 = [] ∧
    idsOf (runLines initMA
      [(strBytes "id:123", 2), (strBytes ":", 0), (strBytes ":    ", 0),
       (strBytes "event: foo ", 5), ([], -1)]).2 = ["123"] := by
  refine ⟨fun st fb => ?_, by decide, by decide⟩
  by_cases hd : st.dataParts = [] <;> simp [feedLine, hd, messagesOf]

/-- C5: the happy-path block of retry, id, event and data lines followed by
a blank line invokes the retry signal exactly once with 42, the id signal
exactly once with abc, and dispatches exactly one message carrying id abc,
event def, data ghi and retry 42, in stream order. -/
theorem happy_path_single_dispatch :
    (runLines initMA
      [(strBytes "retry: 42", 5), (strBytes "id: abc", 2),
       (strBytes "event:def", 5), (strBytes "data:ghi", 4), ([], -1)]).2 =
      [MAEvent.onRetry 42, MAEvent.onId "abc",
       MAEvent.onMessage ⟨"abc", "def", "ghi", some 42⟩] := by
  decide

/-- C6: every data field line appends its extracted value — one leading
space stripped when present, empty when the colon is absent or last — to
the data buffer of any state, and the dispatched data is the buffer joined
with line feeds, preserving empty entries: the four test lines produce the
data YHOO, +2, the empty string and 10 joined by line feeds. -/
theorem data_lines_append_and_join :
    (∀ st : MAState,
      (feedLine st (strBytes "data:YHOO") 4).1.dataParts = st.dataParts ++ ["YHOO"] ∧
      (feedLine st (strBytes "data: +2") 4).1.dataParts = st.dataParts ++ ["+2"] ∧
      (feedLine st (strBytes "data") 4).1.dataParts = st.dataParts ++ [""] ∧
      (feedLine st (strBytes "data: 10") 4).1.dataParts = st.dataParts ++ ["10"]) ∧
    messagesOf (runLines initMA
      [(strBytes "data:YHOO", 4), (strBytes "data: +2", 4), (strBytes "data", 4),
       (strBytes "data: 10", 4), ([], -1)]).2 =
      [⟨"", "", "YHOO\n+2\n\n10", none⟩] := by
  refine ⟨fun st => ⟨?_, ?_, ?_, ?_⟩, by decide⟩ <;> rfl

/-- The default retry interval of src/fetch.ts. -/
def DefaultRetryInterval : Nat := 1000

/-- The session state of fetchEventSource that survives across attempts:
the recorded last event id and the current retry interval, as held by the
closure variables lastEventId and retryInterval in src/fetch.ts. A JS value
of undefined is modelled by the none case. -/
structure Session where
  lastEventId : Option String
  retryInterval : Nat
deriving DecidableEq

/-- The session at the start of fetchEventSource: no last event id, retry
interval at the default. -/
def initSession : Session := ⟨none, DefaultRetryInterval⟩

/-- The onId callback wired into getMessages by src/fetch.ts: a truthy
(non-empty) id is stored for the next retry, an empty one clears the stored
id so the header is no longer sent. -/
def applyOnId (s : Session) (id : String) : Session :=
  if id ≠ "" then { s with lastEventId := some id }
  else { s with lastEventId := none }

/-- The onRetryInterval callback wired into getMessages by src/fetch.ts:
the numeric retry value replaces the session retry interval. -/
def applyOnRetry (s : Session) (retry : Nat) : Session :=
  { s with retryInterval := retry }

/-- How one assembler callback invocation updates the session, per the
wiring in src/fetch.ts: onId and onRetry update the session, a dispatched
message goes to the caller and leaves the session unchanged. -/
def applyEvent (s : Session) (e : MAEvent) : Session :=
  match e with
  | .onId i => applyOnId s i
  | .onRetry r => applyOnRetry s r
  | .onMessage _ => s

/-- The session after a stream of assembler callback invocations, starting
from a fresh fetchEventSource call. -/
def sessionAfter (evs : List MAEvent) : Session := evs.foldl applyEvent initSession

/-- A header object, modelled as a string-keyed partial map. -/
abbrev HeaderMap := String → Option String

/-- Assignment of one header key, as the JS object write does. -/
def hset (h : HeaderMap) (k v : String) : HeaderMap :=
  fun q => if q = k then some v else h q

/-- The header construction at the start of each attempt in src/fetch.ts:
fresh base headers, an accept header forced to text/event-stream when the
base has none (or a falsy one), and the last-event-id header attached when a
truthy last event id is recorded. -/
def buildHeaders (base : HeaderMap) (lastEventId : Option String) : HeaderMap :=
  let h1 := if (base "accept").getD "" = "" then
      hset base "accept" "text/event-stream"
    else base
  match lastEventId with
  | some i => if i = "" then h1 else hset h1 "last-event-id" i
  | none => h1

/-- The resources owned by one fetchEventSource call: the visibility
listener, the pending retry timer, and the current request controller. -/
structure Resources where
  visibilityListenerActive : Bool
  retryTimerPending : Bool
  curRequestAborted : Bool
deriving DecidableEq

/-- The dispose function of src/fetch.ts: it removes the visibility
listener, clears the retry timer, and aborts the current request controller
when not already aborted — so afterwards it is aborted in either case. -/
def dispose (r : Resources) : Resources :=
  ⟨false, false, true⟩

/-- How the overall promise is settled. -/
inductive Settlement (ε : Type) where
  | resolved
  | rejected (err : ε)
deriving DecidableEq

/-- The action the catch branch of create ends in, for one failed attempt. -/
inductive RetryAction (ε : Type) where
  | swallowAborted
  | resolveOp
  | waitForVisible
  | schedule (delayMs : Nat)
  | rejectOp (err : ε)
deriving DecidableEq

/-- What the catch branch did: whether the caller onerror hook was invoked,
and the resulting action. -/
structure CatchOutcome (ε : Type) where
  onerrorInvoked : Bool
  action : RetryAction ε
deriving DecidableEq

/-- Whether an action disposes the resources (the resolve and reject paths
of src/fetch.ts both call dispose before settling). -/
def disposes {ε : Type} : RetryAction ε → Bool
  | .resolveOp => true
  | .rejectOp _ => true
  | _ => false

/-- Whether an action schedules a further attempt via the retry timer. -/
def schedulesRetry {ε : Type} : RetryAction ε → Bool
  | .schedule _ => true
  | _ => false

/-- The settlement an action applies to the overall promise, when any. -/
def settlementOf {ε : Type} : RetryAction ε → Option (Settlement ε)
  | .resolveOp => some .resolved
  | .rejectOp e => some (.rejected e)
  | _ => none

/-- The tail of the create function in src/fetch.ts (the catch branch):
when the controller owned by this attempt already aborted, do nothing. Otherwise
run the caller onerror hook — modelled as absent, or as returning an
optional interval, or as throwing — and take the interval it returns,
falling back to the session retry interval when the hook is absent or
returns nothing. A hook throw disposes and rejects with the thrown value.
Then: resolve when the caller signal aborted during the hook; wait for the
visibility handler when the page is hidden and hiding was not opted out;
otherwise schedule the next attempt after the computed interval. -/
def onAttemptError {ε : Type} (currentAborted : Bool)
    (hook : Option (Except ε (Option Nat))) (retryInterval : Nat)
    (inputAborted hidden openWhenHidden : Bool) : CatchOutcome ε :=
  if currentAborted then ⟨false, .swallowAborted⟩
  else
    match hook with
    | none =>
        ⟨false,
         if inputAborted then .resolveOp
         else if ¬openWhenHidden ∧ hidden then .waitForVisible
         else .schedule retryInterval⟩
    | some (Except.error e) => ⟨true, .rejectOp e⟩
    | some (Except.ok r) =>
        ⟨true,
         if inputAborted then .resolveOp
         else if ¬openWhenHidden ∧ hidden then .waitForVisible
         else .schedule (r.getD retryInterval)⟩

/-- The body of the caller-signal abort listener in src/fetch.ts: dispose
and resolve, with no onerror involvement. -/
def onInputAbort {ε : Type} : CatchOutcome ε := ⟨false, .resolveOp⟩

/-- C7: a retriable failure (own controller not aborted, hook not throwing,
caller signal quiet, page not hidden) schedules the next attempt after the
interval the onerror hook returned, falling back to the session retry
interval when the hook is absent or returns nothing; that session interval
starts at 1000 and is replaced by every numeric retry value the server sent
through the retry side-channel. -/
theorem retry_delay_from_hook_or_session :
    initSession.retryInterval = 1000 ∧
    (∀ (s : Session) (r : Nat), (applyEvent s (MAEvent.onRetry r)).retryInterval = r) ∧
    (∀ (ε : Type) (ri : Nat) (res : Option Nat) (owh : Bool),
      onAttemptError false (some (Except.ok res)) ri false false owh =
        (⟨true, .schedule (res.getD ri)⟩ : CatchOutcome ε)) ∧
    (∀ (ε : Type) (ri : Nat) (owh : Bool),
      onAttemptError false none ri false false owh =
        (⟨false, .schedule ri⟩ : CatchOutcome ε)) :=
  ⟨rfl, fun _ _ => rfl,
   fun _ _ _ _ => by simp [onAttemptError],
   fun _ _ _ => by simp [onAttemptError]⟩

/-- C8: when the onerror hook throws, the catch branch disposes everything
and rejects the overall promise with exactly the thrown value, regardless
of the caller signal or page visibility; the rejecting action settles the
promise, schedules no further attempt, and dispose leaves no listener, no
timer, and an aborted request. -/
theorem hook_throw_rejects_and_stops :
    (∀ (ε : Type) (e : ε) (ri : Nat) (ia hid owh : Bool),
      onAttemptError false (some (Except.error e)) ri ia hid owh =
        ⟨true, .rejectOp e⟩) ∧
    (∀ (ε : Type) (e : ε),
      settlementOf (RetryAction.rejectOp e) = some (Settlement.rejected e) ∧
      schedulesRetry (RetryAction.rejectOp e) = false ∧
      disposes (RetryAction.rejectOp e) = true) ∧
    (∀ r : Resources, dispose r = ⟨false, false, true⟩) :=
  ⟨fun _ _ _ _ _ _ => rfl, fun _ _ => ⟨rfl, rfl, rfl⟩, fun _ => rfl⟩

/-- C9: the caller-signal abort listener disposes and resolves the overall
promise without touching the onerror hook; dispose aborts the in-flight
request controller and clears any pending retry timer, and the catch branch
of the aborted attempt then invokes no onerror, settles nothing further,
and schedules no retry. -/
theorem caller_abort_resolves_without_onerror :
    (∀ ε : Type, (onInputAbort : CatchOutcome ε) =
      ⟨false, RetryAction.resolveOp⟩) ∧
    (∀ ε : Type, settlementOf (RetryAction.resolveOp : RetryAction ε) =
      some Settlement.resolved) ∧
    (∀ r : Resources,
      (dispose r).curRequestAborted = true ∧ (dispose r).retryTimerPending = false) ∧
    (∀ (ε : Type) (hook : Option (Except ε (Option Nat))) (ri : Nat)
        (ia hid owh : Bool),
      onAttemptError true hook ri ia hid owh = ⟨false, .swallowAborted⟩ ∧
      settlementOf (RetryAction.swallowAborted : RetryAction ε) = none ∧
      schedulesRetry (RetryAction.swallowAborted : RetryAction ε) = false) :=
  ⟨fun _ => rfl, fun _ => rfl, fun _ => ⟨rfl, rfl⟩,
   fun _ _ _ _ _ _ => ⟨rfl, rfl, rfl⟩⟩

/-- The id carried by the last id-signal invocation in a stream of
assembler callback invocations, when there is one. -/
def lastIdUpdate : List MAEvent → Option String
  | [] => none
  | MAEvent.onId i :: rest =>
      match lastIdUpdate rest with
      | some j => some j
      | none => some i
  | _ :: rest => lastIdUpdate rest

theorem foldl_applyEvent_lastEventId (evs : List MAEvent) (s : Session) :
    (evs.foldl applyEvent s).lastEventId =
      match lastIdUpdate evs with
      | some i => if i = "" then none else some i
      | none => s.lastEventId := by
  induction evs generalizing s with
  | nil => rfl
  | cons e rest ih =>
      cases e with
      | onId i =>
          simp only [List.foldl_cons, ih, lastIdUpdate]
          cases lastIdUpdate rest with
          | some j => rfl
          | none =>
              by_cases hi : i = "" <;>
                simp [applyEvent, applyOnId, hi]
      | onRetry r =>
          simp only [List.foldl_cons, ih, lastIdUpdate]
          cases lastIdUpdate rest with
          | some j => rfl
          | none => rfl
      | onMessage m =>
          simp only [List.foldl_cons, ih, lastIdUpdate]
          cases lastIdUpdate rest with
          | some j => rfl
          | none => rfl

/-- C10: when the caller base headers carry no last-event-id entry, the
headers built for the next attempt carry last-event-id exactly when the most
recent id-signal of the prior attempts was non-empty, and then with that
value; with no id observed, or with the most recent id empty, the header is
absent. -/
theorem last_event_id_header (base : HeaderMap) (evs : List MAEvent)
    (hbase : base "last-event-id" = none) :
    buildHeaders base (sessionAfter evs).lastEventId "last-event-id" =
      match lastIdUpdate evs with
      | some i => if i = "" then none else some i
      | none => none := by
  have hsess := foldl_applyEvent_lastEventId evs initSession
  rw [sessionAfter, hsess]
  show buildHeaders base _ "last-event-id" = _
  cases hlast : lastIdUpdate evs with
  | none =>
      simp only [initSession]
      unfold buildHeaders
      split
      · simp [hset, hbase]
      · exact hbase
  | some i =>
      by_cases hi : i = ""
      · simp only [hi, reduceIte, initSession]
        unfold buildHeaders
        split
        · simp [hset, hbase]
        · exact hbase
      · simp only [hi, reduceIte]
        unfold buildHeaders
        simp only [hi, reduceIte]
        simp [hset]

/-- Witness for C10: with empty base headers and one non-empty id signal,
the built headers carry the header with that id. -/
theorem last_event_id_header_witness :
    buildHeaders (fun _ => none) (sessionAfter [MAEvent.onId "abc"]).lastEventId
      "last-event-id" = some "abc" := by
  have h := last_event_id_header (fun _ => none) [MAEvent.onId "abc"] rfl
  simpa [lastIdUpdate] using h

end SSE
